import Mathlib

/-
Verification of the virtio_wl guest driver (src/virtio_wl.c) against its
natural-language specification.  The driver is shallowly embedded: each C
function relevant to the claims is translated into an executable Lean
definition over explicit state (the VFD handle table is a list of allocated
ids, a VFD's pending queue is a list of `QEntry` records mirroring
`struct virtwl_vfd_qentry` together with the receive buffer it retains).
Blocking primitives (`wait_event_timeout`, `wait_event_interruptible`,
`wait_for_completion`) are modelled by threading an explicit list of wait
outcomes through the function; kernel allocation failures and user-copy
faults are modelled by boolean/integer oracle parameters where the claims
need them.
-/

namespace VirtioWl

/-! ## Constants

`VFD_ILLEGAL_SIGN_BIT` and `VFD_HOST_VFD_ID_BIT` are defined in
src/virtio_wl.c itself.  Linux errno values are the standard ones. -/

def VFD_ILLEGAL_SIGN_BIT : Nat := 0x80000000

def VFD_HOST_VFD_ID_BIT : Nat := 0x40000000

def ENODEV : Int := 19

def ENOMEM : Int := 12

def EINVAL : Int := 22

def EACCES : Int := 13

def EAGAIN : Int := 11

def EBUSY : Int := 16

def ENOSPC : Int := 28

def ERESTARTSYS : Int := 512

def PAGE_SHIFT : Nat := 12

def PAGE_SIZE : Nat := 4096

/-- Modelled from the spec: the control-message type tags, VFD capability
flag bits and ioctl/range limits are declared in the repository header
`virtio_wl.h`, which is not present under src/.  The spec (section 6) lists the
message kinds (new-handle, new-context, send, receive, close, the
acknowledgment kinds ok/created and the error kinds generic-error,
out-of-memory, unknown-ID, unknown-type) as distinct type-tagged kinds, and
src/virtio_wl.c uses each tag as a distinct `case` label, so only their
distinctness is observable; the numeric values below are otherwise
arbitrary.  The same applies to the flag bits (mappable, writable,
is-control-context), to the page granularity (the spec scenario fixes it at
4096 bytes) and to the allocation limits. -/
def VIRTIO_WL_CMD_VFD_NEW : Nat := 0x100

def VIRTIO_WL_CMD_VFD_CLOSE : Nat := 0x101

def VIRTIO_WL_CMD_VFD_SEND : Nat := 0x102

def VIRTIO_WL_CMD_VFD_RECV : Nat := 0x103

def VIRTIO_WL_CMD_VFD_NEW_CTX : Nat := 0x104

def VIRTIO_WL_RESP_OK : Nat := 0x1000

def VIRTIO_WL_RESP_VFD_NEW : Nat := 0x1001

def VIRTIO_WL_RESP_ERR : Nat := 0x1100

def VIRTIO_WL_RESP_OUT_OF_MEMORY : Nat := 0x1101

def VIRTIO_WL_RESP_INVALID_ID : Nat := 0x1102

def VIRTIO_WL_RESP_INVALID_TYPE : Nat := 0x1103

def VIRTIO_WL_VFD_WRITE : Nat := 0x1

def VIRTIO_WL_VFD_MAP : Nat := 0x2

def VIRTIO_WL_VFD_CONTROL : Nat := 0x4

def VIRTWL_MAX_ALLOC : Nat := 0x400

def VIRTWL_SEND_MAX_ALLOCS : Nat := 28

def VIRTWL_IOCTL_NEW_CTX : Nat := 0

def VIRTWL_IOCTL_NEW_ALLOC : Nat := 1

/-- Modelled from the spec: `sizeof(struct virtio_wl_ctrl_vfd_recv)` (the
header carrying type, flags, vfd_id and vfd_count, each 32 bits, declared in
the missing header `virtio_wl.h`).  The pending-queue cursor arithmetic in
src/virtio_wl.c subtracts this constant from the entry's total byte length. -/
def ctrl_vfd_recv_size : Nat := 16

/-! ## virtwl_resp_err (src/virtio_wl.c lines 107-122)

Maps a host response type tag to a local errno-style result. -/

def virtwl_resp_err (type : Nat) : Int :=
  if type = VIRTIO_WL_RESP_OK then 0
  else if type = VIRTIO_WL_RESP_VFD_NEW then 0
  else if type = VIRTIO_WL_RESP_ERR then -ENODEV
  else if type = VIRTIO_WL_RESP_OUT_OF_MEMORY then -ENOMEM
  else -EINVAL

/-! ## Pending-queue entries (struct virtwl_vfd_qentry)

A `QEntry` is one retained receive buffer together with the qentry
bookkeeping: `len` is the total byte length reported by the transport
completion, `vfdOffset` and `dataOffset` are the two consumption cursors.
The raw buffer is represented by the list of transferred handle ids
(`handles`, the `__le32` array after the header) and the payload bytes
(`payload`, the data after that array); `vfdCount` mirrors the
`vfd_count` field of the buffer's header. -/

structure QEntry where
  hdrType : Nat
  vfdId : Nat
  vfdCount : Nat
  handles : List Nat
  payload : List Nat
  len : Nat
  vfdOffset : Nat
  dataOffset : Nat
deriving DecidableEq, Repr

/-- Declared payload byte length of a receive entry:
`(ssize_t)qentry->len - (ssize_t)sizeof(*recv) - (ssize_t)recv->vfd_count * sizeof(__le32)`. -/
def qentry_data_len (q : QEntry) : Int :=
  (q.len : Int) - (ctrl_vfd_recv_size : Int) - (q.vfdCount : Int) * 4

/-- A qentry is consistent with the buffer it retains: the completion length
accounts for the header, the handle array and the payload, and the header's
`vfd_count` matches the handle array. -/
def QEntryWF (q : QEntry) : Prop :=
  q.len = ctrl_vfd_recv_size + 4 * q.vfdCount + q.payload.length ∧
  q.vfdCount = q.handles.length

instance (q : QEntry) : Decidable (QEntryWF q) := by
  unfold QEntryWF; infer_instance

/-- The emptiness test of `vfd_qentry_free_if_empty` (src/virtio_wl.c lines
415-434): a receive-type entry is empty when the handle cursor has reached
`vfd_count` and the data cursor has reached the declared payload length; any
other entry type counts as empty. -/
def vfd_qentry_is_empty (q : QEntry) : Bool :=
  if q.hdrType = VIRTIO_WL_CMD_VFD_RECV then
    if q.vfdOffset < q.vfdCount then false
    else if (q.dataOffset : Int) < qentry_data_len q then false
    else true
  else true

/-- `vfd_qentry_free_if_empty` (src/virtio_wl.c lines 415-442) acting on the
queue that links the entry: when the entry is empty its buffer is returned
to the transport (the `Bool` component) and the entry is unlinked and freed;
otherwise nothing happens. -/
def vfd_qentry_free_if_empty (queue : List QEntry) (q : QEntry) :
    List QEntry × Bool :=
  if vfd_qentry_is_empty q then
    (queue.filter (fun e => decide (e ≠ q)), true)
  else (queue, false)

/-- Emptiness of a receive-type qentry is exactly both cursors having
reached their declared bounds. -/
theorem qentry_is_empty_iff (q : QEntry)
    (ht : q.hdrType = VIRTIO_WL_CMD_VFD_RECV) :
    vfd_qentry_is_empty q = true ↔
      (q.vfdCount ≤ q.vfdOffset ∧ qentry_data_len q ≤ (q.dataOffset : Int)) := by
  unfold vfd_qentry_is_empty
  rw [if_pos ht]
  by_cases h1 : q.vfdOffset < q.vfdCount
  · rw [if_pos h1]
    constructor
    · intro h; exact absurd h Bool.false_ne_true
    · intro h; omega
  · rw [if_neg h1]
    by_cases h2 : (q.dataOffset : Int) < qentry_data_len q
    · rw [if_pos h2]
      constructor
      · intro h; exact absurd h Bool.false_ne_true
      · intro h; exact absurd h2 (not_lt.mpr h.2)
    · rw [if_neg h2]
      constructor
      · intro _; exact ⟨by omega, not_lt.mp h2⟩
      · intro _; rfl

/-- C1: a pending-queue entry (all queued entries carry the receive type,
the only type `vq_handle_recv` enqueues) is released back to the transport —
buffer re-submitted, entry unlinked — exactly when its handle cursor has
reached the declared handle count and its data cursor has reached the
declared payload length; an entry whose cursors have not both reached their
bounds is left linked in the queue, which is unchanged. -/
theorem qentry_released_iff_cursors_done (queue : List QEntry) (q : QEntry)
    (hq : q ∈ queue) (ht : q.hdrType = VIRTIO_WL_CMD_VFD_RECV) :
    ((vfd_qentry_free_if_empty queue q).2 = true ↔
      (q.vfdCount ≤ q.vfdOffset ∧ qentry_data_len q ≤ (q.dataOffset : Int))) ∧
    ((vfd_qentry_free_if_empty queue q).2 = true →
      q ∉ (vfd_qentry_free_if_empty queue q).1) ∧
    ((vfd_qentry_free_if_empty queue q).2 = false →
      (vfd_qentry_free_if_empty queue q).1 = queue ∧
        q ∈ (vfd_qentry_free_if_empty queue q).1) := by
  have hiff := qentry_is_empty_iff q ht
  unfold vfd_qentry_free_if_empty
  by_cases he : vfd_qentry_is_empty q
  · rw [if_pos he]
    refine ⟨⟨fun _ => hiff.mp he, fun _ => rfl⟩, ?_, ?_⟩
    · intro _ hmem
      have h2 := List.of_mem_filter hmem
      simp at h2
    · intro hcon; exact Bool.noConfusion hcon
  · rw [if_neg he]
    refine ⟨⟨fun h => Bool.noConfusion h, fun h => absurd (hiff.mpr h) he⟩,
      ?_, fun _ => ⟨rfl, hq⟩⟩
    intro hcon; exact Bool.noConfusion hcon

/-- Witness for C1 at a concrete input: a fully-drained receive entry in a
one-entry queue is released, and the iff evaluates as stated. -/
theorem qentry_released_iff_cursors_done_witness :
    (let q : QEntry :=
      { hdrType := VIRTIO_WL_CMD_VFD_RECV, vfdId := 0x40000001, vfdCount := 1,
        handles := [5], payload := [7, 8], len := 22, vfdOffset := 1,
        dataOffset := 2 }
    ((vfd_qentry_free_if_empty [q] q).2 = true ↔
      (q.vfdCount ≤ q.vfdOffset ∧ qentry_data_len q ≤ (q.dataOffset : Int))) ∧
    ((vfd_qentry_free_if_empty [q] q).2 = true →
      q ∉ (vfd_qentry_free_if_empty [q] q).1) ∧
    ((vfd_qentry_free_if_empty [q] q).2 = false →
      (vfd_qentry_free_if_empty [q] q).1 = [q] ∧
        q ∈ (vfd_qentry_free_if_empty [q] q).1)) :=
  qentry_released_iff_cursors_done _ _ (by decide) (by decide)

/-- C8 counterexample: the host error codes unknown-ID and unknown-type are
distinct response tags, yet `virtwl_resp_err` maps both to the same local
error `-EINVAL`, so distinct host error codes do not always yield distinct
local error results. -/
theorem virtwl_resp_err_not_injective :
    VIRTIO_WL_RESP_INVALID_ID ≠ VIRTIO_WL_RESP_INVALID_TYPE ∧
    virtwl_resp_err VIRTIO_WL_RESP_INVALID_ID =
      virtwl_resp_err VIRTIO_WL_RESP_INVALID_TYPE ∧
    virtwl_resp_err VIRTIO_WL_RESP_INVALID_ID = -EINVAL := by
  refine ⟨by decide, by decide, by decide⟩

/-- C8 (amended): `virtwl_resp_err` maps device-unreliable to `-ENODEV`,
out-of-memory to `-ENOMEM`, and both unknown-handle and unknown-type to the
same `-EINVAL`; the three local failure kinds that occur are pairwise
distinct, and both success acknowledgments map to success (0). -/
theorem virtwl_resp_err_mapping :
    virtwl_resp_err VIRTIO_WL_RESP_OK = 0 ∧
    virtwl_resp_err VIRTIO_WL_RESP_VFD_NEW = 0 ∧
    virtwl_resp_err VIRTIO_WL_RESP_ERR = -ENODEV ∧
    virtwl_resp_err VIRTIO_WL_RESP_OUT_OF_MEMORY = -ENOMEM ∧
    virtwl_resp_err VIRTIO_WL_RESP_INVALID_ID = -EINVAL ∧
    virtwl_resp_err VIRTIO_WL_RESP_INVALID_TYPE = -EINVAL ∧
    (-ENODEV : Int) ≠ -ENOMEM ∧ (-ENODEV : Int) ≠ -EINVAL ∧
    (-ENOMEM : Int) ≠ -EINVAL ∧
    (-ENODEV : Int) ≠ 0 ∧ (-ENOMEM : Int) ≠ 0 ∧ (-EINVAL : Int) ≠ 0 := by
  decide

/-! ## vfd_out_locked (src/virtio_wl.c lines 444-481)

Walks the pending queue in arrival order, copying up to `len` bytes out of
receive-type entries, advancing each touched entry's data cursor and
releasing entries that become empty.  User-copy faults are not modelled
(`copy_to_user` is assumed to succeed).  Result: (bytes copied out, queue
after the walk). -/

/-- Bytes still unread in a qentry:
`(ssize_t)qentry->len - (ssize_t)(sizeof(*recv) + recv->vfd_count * sizeof(__le32) + qentry->data_offset)`. -/
def qentry_data_remaining (q : QEntry) : Int :=
  (q.len : Int) -
    ((ctrl_vfd_recv_size : Int) + (q.vfdCount : Int) * 4 + (q.dataOffset : Int))

/-- Advance the data cursor of a qentry by `n` bytes. -/
def qentry_advance_data (q : QEntry) (n : Nat) : QEntry :=
  { q with dataOffset := q.dataOffset + n }

def vfd_out_locked : List QEntry → Nat → List Nat × List QEntry
  | [], _ => ([], [])
  | q :: rest, len =>
    if len = 0 then ([], q :: rest)
    else if qentry_data_remaining q ≤ 0 then
      let r := vfd_out_locked rest len
      (r.1, q :: r.2)
    else if q.hdrType ≠ VIRTIO_WL_CMD_VFD_RECV then
      let r := vfd_out_locked rest len
      (r.1, q :: r.2)
    else
      let toRead := min (qentry_data_remaining q).toNat len
      let bytes := (q.payload.drop q.dataOffset).take toRead
      let q2 := qentry_advance_data q toRead
      let r := vfd_out_locked rest (len - toRead)
      if vfd_qentry_is_empty q2 then (bytes ++ r.1, r.2)
      else (bytes ++ r.1, q2 :: r.2)

/-- All payload bytes queued and not yet consumed, in arrival order
(receive-type entries only; other types are skipped by the drain). -/
def queuedBytes : List QEntry → List Nat
  | [] => []
  | q :: rest =>
    (if q.hdrType = VIRTIO_WL_CMD_VFD_RECV then q.payload.drop q.dataOffset
     else []) ++ queuedBytes rest

/-- Unfolding of `queuedBytes` at a receive-type head entry. -/
theorem queuedBytes_cons_recv (q : QEntry) (rest : List QEntry)
    (h : q.hdrType = VIRTIO_WL_CMD_VFD_RECV) :
    queuedBytes (q :: rest) = q.payload.drop q.dataOffset ++ queuedBytes rest := by
  simp only [queuedBytes, if_pos h]

/-- Draining bytes behaves on the queued byte stream as take/drop: the bytes
copied out are the first `len` queued bytes and the queue keeps exactly the
rest, in order. -/
theorem vfd_out_locked_take_drop : ∀ (queue : List QEntry) (len : Nat),
    (∀ q ∈ queue, QEntryWF q) →
    (∀ q ∈ queue, q.hdrType = VIRTIO_WL_CMD_VFD_RECV) →
    (vfd_out_locked queue len).1 = (queuedBytes queue).take len ∧
      queuedBytes (vfd_out_locked queue len).2 = (queuedBytes queue).drop len := by
  intro queue
  induction queue with
  | nil => intro len _ _; simp [vfd_out_locked, queuedBytes]
  | cons q rest ih =>
    intro len hwf hrecv
    have hwq : QEntryWF q := hwf q (List.mem_cons_self _ _)
    have hrq : q.hdrType = VIRTIO_WL_CMD_VFD_RECV := hrecv q (List.mem_cons_self _ _)
    have hwr : ∀ e ∈ rest, QEntryWF e := fun e he => hwf e (List.mem_cons_of_mem _ he)
    have hrr : ∀ e ∈ rest, e.hdrType = VIRTIO_WL_CMD_VFD_RECV :=
      fun e he => hrecv e (List.mem_cons_of_mem _ he)
    have hlen : q.len = ctrl_vfd_recv_size + 4 * q.vfdCount + q.payload.length := hwq.1
    have hrem : qentry_data_remaining q =
        (q.payload.length : Int) - (q.dataOffset : Int) := by
      unfold qentry_data_remaining
      rw [hlen]
      push_cast
      ring
    have hqb : queuedBytes (q :: rest) =
        q.payload.drop q.dataOffset ++ queuedBytes rest :=
      queuedBytes_cons_recv q rest hrq
    by_cases h0 : len = 0
    · subst h0
      simp only [vfd_out_locked, if_pos rfl]
      simp
    · by_cases hskip : qentry_data_remaining q ≤ 0
      · -- entry with no bytes left: skipped, kept in the queue
        have hdrop : q.payload.drop q.dataOffset = [] :=
          List.drop_eq_nil_of_le (by omega)
        obtain ⟨ih1, ih2⟩ := ih len hwr hrr
        simp only [vfd_out_locked, if_neg h0, if_pos hskip]
        constructor
        · show (vfd_out_locked rest len).1 = _
          rw [ih1, hqb, hdrop, List.nil_append]
        · show queuedBytes (q :: (vfd_out_locked rest len).2) = _
          rw [queuedBytes_cons_recv q _ hrq, hdrop, List.nil_append, ih2, hqb,
            hdrop, List.nil_append]
      · -- entry with bytes: copy min(remaining, len), advance, free if empty
        have htn : (qentry_data_remaining q).toNat =
            q.payload.length - q.dataOffset := by omega
        have hoff : q.dataOffset < q.payload.length := by omega
        have hlrem : (q.payload.drop q.dataOffset).length =
            q.payload.length - q.dataOffset := by
          rw [List.length_drop]
        simp only [vfd_out_locked, if_neg h0, if_neg hskip,
          if_neg (not_not_intro hrq)]
        generalize hcdef : min (qentry_data_remaining q).toNat len = c
        have hcR : c ≤ q.payload.length - q.dataOffset := by omega
        have hcl : c ≤ len := by omega
        have hq2rec : (qentry_advance_data q c).hdrType =
            VIRTIO_WL_CMD_VFD_RECV := hrq
        have hq2off : (qentry_advance_data q c).dataOffset = q.dataOffset + c := rfl
        have hq2len : qentry_data_len (qentry_advance_data q c) =
            (q.payload.length : Int) := by
          show (q.len : Int) - (ctrl_vfd_recv_size : Int) - (q.vfdCount : Int) * 4 = _
          rw [hlen]
          push_cast
          ring
        obtain ⟨ih1, ih2⟩ := ih (len - c) hwr hrr
        have htake : (q.payload.drop q.dataOffset).take c =
            (q.payload.drop q.dataOffset).take len := by
          rw [List.take_eq_take]
          omega
        by_cases hemp : vfd_qentry_is_empty (qentry_advance_data q c)
        · -- the entry is fully drained by this copy and is released
          have hcd := (qentry_is_empty_iff _ hq2rec).mp hemp
          have hfull : c = q.payload.length - q.dataOffset := by
            have h2 := hcd.2
            rw [hq2len, hq2off] at h2
            omega
          rw [if_pos hemp]
          constructor
          · show (q.payload.drop q.dataOffset).take c ++
                (vfd_out_locked rest (len - c)).1 = _
            rw [ih1, hqb, List.take_append_eq_append_take, htake]
            congr 2
            omega
          · show queuedBytes (vfd_out_locked rest (len - c)).2 = _
            rw [ih2, hqb, List.drop_append_eq_append_drop]
            have hnil : (q.payload.drop q.dataOffset).drop len = [] :=
              List.drop_eq_nil_of_le (by omega)
            rw [hnil, List.nil_append]
            congr 2
            omega
        · -- the entry keeps unread bytes or unread handles: kept in queue
          rw [if_neg hemp]
          constructor
          · show (q.payload.drop q.dataOffset).take c ++
                (vfd_out_locked rest (len - c)).1 = _
            rw [ih1, hqb, List.take_append_eq_append_take, htake]
            congr 2
            omega
          · show queuedBytes (qentry_advance_data q c ::
                (vfd_out_locked rest (len - c)).2) = _
            rw [queuedBytes_cons_recv _ _ hq2rec, hq2off]
            have hppl : (qentry_advance_data q c).payload = q.payload := rfl
            rw [hppl, ih2, hqb, List.drop_append_eq_append_drop]
            have ha : q.payload.drop (q.dataOffset + c) =
                (q.payload.drop q.dataOffset).drop len := by
              rw [List.drop_drop]
              rcases Nat.lt_or_ge c len with hlt | hge
              · have h1 : q.payload.drop (q.dataOffset + c) = [] :=
                  List.drop_eq_nil_of_le (by omega)
                have h2 : q.payload.drop (q.dataOffset + len) = [] :=
                  List.drop_eq_nil_of_le (by omega)
                rw [h1, h2]
              · have hce : c = len := by omega
                rw [hce]
            rw [ha]
            congr 2
            omega

/-- Draining bytes preserves the well-formedness and the receive type of
every entry left in the queue (only data cursors are advanced). -/
theorem vfd_out_locked_preserves : ∀ (queue : List QEntry) (len : Nat),
    (∀ q ∈ queue, QEntryWF q ∧ q.hdrType = VIRTIO_WL_CMD_VFD_RECV) →
    ∀ q ∈ (vfd_out_locked queue len).2,
      QEntryWF q ∧ q.hdrType = VIRTIO_WL_CMD_VFD_RECV := by
  intro queue
  induction queue with
  | nil => intro len _ q hq; simp [vfd_out_locked] at hq
  | cons q rest ih =>
    intro len h
    have hq := h q (List.mem_cons_self _ _)
    have hr : ∀ e ∈ rest, QEntryWF e ∧ e.hdrType = VIRTIO_WL_CMD_VFD_RECV :=
      fun e he => h e (List.mem_cons_of_mem _ he)
    by_cases h0 : len = 0
    · subst h0
      simp only [vfd_out_locked, if_pos rfl]
      exact h
    · by_cases hskip : qentry_data_remaining q ≤ 0
      · simp only [vfd_out_locked, if_neg h0, if_pos hskip]
        intro e he
        rcases List.mem_cons.mp he with rfl | he2
        · exact hq
        · exact ih len hr e he2
      · simp only [vfd_out_locked, if_neg h0, if_neg hskip,
          if_neg (not_not_intro hq.2)]
        by_cases hemp : vfd_qentry_is_empty
            (qentry_advance_data q (min (qentry_data_remaining q).toNat len))
        · rw [if_pos hemp]
          intro e he
          exact ih _ hr e he
        · rw [if_neg hemp]
          intro e he
          rcases List.mem_cons.mp he with rfl | he2
          · exact hq
          · exact ih _ hr e he2

/-- C2: when the pending queue holds more payload bytes than the receive
destination capacity `cap1`, the drain returns exactly `cap1` bytes, and a
subsequent drain with enough capacity returns the remaining queued bytes in
the original arrival order; the two results concatenate to exactly the
originally queued byte stream (no loss, no duplication). -/
theorem vfd_out_locked_partial_read (queue : List QEntry) (cap1 cap2 : Nat)
    (hwf : ∀ q ∈ queue, QEntryWF q ∧ q.hdrType = VIRTIO_WL_CMD_VFD_RECV)
    (hmore : cap1 < (queuedBytes queue).length)
    (hfit : (queuedBytes queue).length - cap1 ≤ cap2) :
    ((vfd_out_locked queue cap1).1).length = cap1 ∧
    (vfd_out_locked (vfd_out_locked queue cap1).2 cap2).1 =
      (queuedBytes queue).drop cap1 ∧
    (vfd_out_locked queue cap1).1 ++
      (vfd_out_locked (vfd_out_locked queue cap1).2 cap2).1 =
      queuedBytes queue := by
  obtain ⟨h1, h2⟩ := vfd_out_locked_take_drop queue cap1
    (fun q hq => (hwf q hq).1) (fun q hq => (hwf q hq).2)
  have hpres := vfd_out_locked_preserves queue cap1 hwf
  obtain ⟨h3, h4⟩ := vfd_out_locked_take_drop (vfd_out_locked queue cap1).2 cap2
    (fun q hq => (hpres q hq).1) (fun q hq => (hpres q hq).2)
  have hlen2 : ((queuedBytes queue).drop cap1).length ≤ cap2 := by
    rw [List.length_drop]
    omega
  refine ⟨?_, ?_, ?_⟩
  · rw [h1, List.length_take]
    omega
  · rw [h3, h2]
    exact List.take_of_length_le hlen2
  · rw [h1, h3, h2, List.take_of_length_le hlen2]
    exact List.take_append_drop _ _

/-- Witness for C2: a queue holding the three bytes 1,2,3 read through a
2-byte destination and then a 4-byte destination yields [1,2] then [3]. -/
theorem vfd_out_locked_partial_read_witness :
    (let q : QEntry :=
      { hdrType := VIRTIO_WL_CMD_VFD_RECV, vfdId := 1, vfdCount := 0,
        handles := [], payload := [1, 2, 3], len := 19, vfdOffset := 0,
        dataOffset := 0 }
    ((vfd_out_locked [q] 2).1).length = 2 ∧
    (vfd_out_locked (vfd_out_locked [q] 2).2 4).1 = (queuedBytes [q]).drop 2 ∧
    (vfd_out_locked [q] 2).1 ++ (vfd_out_locked (vfd_out_locked [q] 2).2 4).1 =
      queuedBytes [q]) :=
  vfd_out_locked_partial_read _ 2 4 (by decide) (by decide) (by decide)

/-! ## vq_queue_out (src/virtio_wl.c lines 139-164)

Submits an outbound descriptor pair.  `virtqueue_add_sgs` fails with
`-ENOSPC` exactly when the queue has no free slot; on that failure a
non-blocking caller returns `-EAGAIN` at once, and a blocking caller does
`wait_event_timeout(vi->out_waitq, vq->num_free > 0, HZ)`, returning
`-EBUSY` if the timeout elapses with the condition still false, otherwise
retrying the add.  The wait outcomes are threaded in as an explicit list:
`wake n` is a wakeup that observes `n` free slots (possibly raced back to
0 by another submitter), `timeout` is an elapsed timeout with no free slot.
`none` means the caller is still blocked when the outcome list runs out. -/

inductive WaitEv
  | wake (numFree : Nat)
  | timeout
deriving DecidableEq, Repr

def vq_queue_out (nonblock : Bool) : Nat → List WaitEv → Option Int
  | numFree, waits =>
    if 0 < numFree then some 0
    else if nonblock then some (-EAGAIN)
    else
      match waits with
      | [] => none
      | WaitEv.timeout :: _ => some (-EBUSY)
      | WaitEv.wake n :: rest => vq_queue_out nonblock n rest

/-- One-step unfolding of `vq_queue_out`. -/
theorem vq_queue_out_unfold (nonblock : Bool) (numFree : Nat)
    (waits : List WaitEv) :
    vq_queue_out nonblock numFree waits =
      if 0 < numFree then some 0
      else if nonblock then some (-EAGAIN)
      else match waits with
        | [] => none
        | WaitEv.timeout :: _ => some (-EBUSY)
        | WaitEv.wake n :: rest => vq_queue_out nonblock n rest := by
  cases waits with
  | nil => rfl
  | cons w rest => cases w <;> rfl

/-- C4 counterexample: with no free slot, a blocking submission escalates to
the busy failure `-EBUSY` after a single elapsed timeout — the trace holds
exactly one timeout event, so escalation does not require the timeout to
elapse repeatedly. -/
theorem vq_queue_out_busy_after_one_timeout :
    vq_queue_out false 0 [WaitEv.timeout] = some (-EBUSY) ∧
    [WaitEv.timeout].length = 1 := by
  exact ⟨rfl, rfl⟩

/-- C4 (amended): with no free slot, a non-blocking submission fails
immediately with `-EAGAIN`; a blocking submission waits on the slot-available
condition and, as soon as a wakeup observes a free slot, submits successfully
(returning 0); if a single bounded timeout elapses without a slot becoming
free the submission escalates to `-EBUSY`. -/
theorem vq_queue_out_backpressure (n : Nat) (waits : List WaitEv) :
    vq_queue_out true 0 waits = some (-EAGAIN) ∧
    (0 < n → vq_queue_out false n waits = some 0) ∧
    vq_queue_out false 0 (WaitEv.wake n :: waits) = vq_queue_out false n waits ∧
    (0 < n → vq_queue_out false 0 (WaitEv.wake n :: waits) = some 0) ∧
    vq_queue_out false 0 (WaitEv.timeout :: waits) = some (-EBUSY) := by
  refine ⟨?_, ?_, rfl, ?_, rfl⟩
  · rw [vq_queue_out_unfold]
    rfl
  · intro h
    rw [vq_queue_out_unfold, if_pos h]
  · intro h
    show vq_queue_out false n waits = some 0
    rw [vq_queue_out_unfold, if_pos h]

/-- Witness for C4 (amended) at concrete inputs. -/
theorem vq_queue_out_backpressure_witness :
    vq_queue_out true 0 [] = some (-EAGAIN) ∧
    vq_queue_out false 1 [] = some 0 ∧
    vq_queue_out false 0 [WaitEv.wake 1] = some 0 ∧
    vq_queue_out false 0 [WaitEv.timeout] = some (-EBUSY) := by
  have h := vq_queue_out_backpressure 1 []
  exact ⟨h.1, h.2.1 (by decide), h.2.2.2.1 (by decide), h.2.2.2.2⟩

/-! ## virtwl_vfd_mmap (src/virtio_wl.c lines 607-640)

Validates the mappable capability flag, then write access, then the
requested range against the page-aligned declared size.  `vm_size` (from
`vma->vm_end - vma->vm_start`) and `vm_pgoff` are `unsigned long`, so the
shift and the sum of the range check wrap modulo 2^64 exactly as the C
computes them; `vfd->size` is `uint32_t`, so the kernel's `PAGE_ALIGN`
macro computes `(size + 4095) & ~4095` in wrapping 32-bit arithmetic.  The
actual `io_remap_pfn_range` is assumed to succeed (its failure is a
pass-through not reached by any claim). -/

structure VMArea where
  vm_size : Nat
  vm_pgoff : Nat
  vm_write : Bool
deriving DecidableEq, Repr

def PAGE_ALIGN (n : Nat) : Nat :=
  ((n + (PAGE_SIZE - 1)) % 2 ^ 32) &&& (2 ^ 32 - PAGE_SIZE)

def virtwl_vfd_mmap (flags size : Nat) (vma : VMArea) : Int :=
  if flags &&& VIRTIO_WL_VFD_MAP = 0 then -EACCES
  else if vma.vm_write ∧ flags &&& VIRTIO_WL_VFD_WRITE = 0 then -EACCES
  else if (vma.vm_size + ((vma.vm_pgoff <<< PAGE_SHIFT) % 2 ^ 64)) % 2 ^ 64 >
      PAGE_ALIGN size then
    -EINVAL
  else 0

/-- C5 counterexample: a request whose offset plus length mathematically
exceeds the page-aligned declared size is not always rejected — at
vm_pgoff = 2^52 - 1 (byte offset 2^64 - 4096) with vm_size = 8192 on a
mappable, writable VFD of aligned size 4096, the driver's `unsigned long`
sum wraps to 4096, the out-of-range check passes, and the mapping is
established instead of failing with `-EINVAL`. -/
theorem virtwl_vfd_mmap_overflow_bypass :
    8192 + ((2 ^ 52 - 1) <<< PAGE_SHIFT) > PAGE_ALIGN 4096 ∧
    virtwl_vfd_mmap (VIRTIO_WL_VFD_MAP ||| VIRTIO_WL_VFD_WRITE) 4096
      { vm_size := 8192, vm_pgoff := 2 ^ 52 - 1, vm_write := true } = 0 := by
  constructor
  · decide
  · decide

/-- C5 (amended): mapping checks run in order — a VFD without the mappable
flag is rejected `-EACCES` whatever else holds; a mappable VFD rejecting a
write request against a missing writable flag is rejected `-EACCES`
whatever the range; a mappable, access-permitted request is rejected
`-EINVAL` when the requested length plus the requested offset, computed in
wrapping unsigned 64-bit arithmetic as the driver computes it, exceeds the
page-aligned declared size; and on a VFD of host-acknowledged size 4096
with map and write flags, map(0, 4096, write) succeeds while
map(0, 8192, write) fails with the out-of-range error. -/
theorem virtwl_vfd_mmap_checks :
    (∀ flags size vma, flags &&& VIRTIO_WL_VFD_MAP = 0 →
      virtwl_vfd_mmap flags size vma = -EACCES) ∧
    (∀ flags size vma, flags &&& VIRTIO_WL_VFD_MAP ≠ 0 →
      vma.vm_write = true → flags &&& VIRTIO_WL_VFD_WRITE = 0 →
      virtwl_vfd_mmap flags size vma = -EACCES) ∧
    (∀ flags size vma, flags &&& VIRTIO_WL_VFD_MAP ≠ 0 →
      (vma.vm_write = true → flags &&& VIRTIO_WL_VFD_WRITE ≠ 0) →
      (vma.vm_size + ((vma.vm_pgoff <<< PAGE_SHIFT) % 2 ^ 64)) % 2 ^ 64 >
        PAGE_ALIGN size →
      virtwl_vfd_mmap flags size vma = -EINVAL) ∧
    virtwl_vfd_mmap (VIRTIO_WL_VFD_MAP ||| VIRTIO_WL_VFD_WRITE) 4096
      { vm_size := 4096, vm_pgoff := 0, vm_write := true } = 0 ∧
    virtwl_vfd_mmap (VIRTIO_WL_VFD_MAP ||| VIRTIO_WL_VFD_WRITE) 4096
      { vm_size := 8192, vm_pgoff := 0, vm_write := true } = -EINVAL := by
  refine ⟨?_, ?_, ?_, by decide, by decide⟩
  · intro flags size vma h
    unfold virtwl_vfd_mmap
    rw [if_pos h]
  · intro flags size vma hmap hw hnw
    unfold virtwl_vfd_mmap
    rw [if_neg hmap, if_pos ⟨by rw [hw], hnw⟩]
  · intro flags size vma hmap hwr hrange
    unfold virtwl_vfd_mmap
    rw [if_neg hmap, if_neg (fun hc => hwr hc.1 hc.2), if_pos hrange]

/-- Witness for C5 (amended) at concrete inputs: missing map flag, missing
write flag, and out-of-range request each produce the stated rejection. -/
theorem virtwl_vfd_mmap_checks_witness :
    virtwl_vfd_mmap 0 4096
      { vm_size := 4096, vm_pgoff := 0, vm_write := false } = -EACCES ∧
    virtwl_vfd_mmap VIRTIO_WL_VFD_MAP 4096
      { vm_size := 4096, vm_pgoff := 0, vm_write := true } = -EACCES ∧
    virtwl_vfd_mmap (VIRTIO_WL_VFD_MAP ||| VIRTIO_WL_VFD_WRITE) 4096
      { vm_size := 8192, vm_pgoff := 0, vm_write := true } = -EINVAL :=
  ⟨virtwl_vfd_mmap_checks.1 0 4096 _ (by decide),
   virtwl_vfd_mmap_checks.2.1 VIRTIO_WL_VFD_MAP 4096 _ (by decide) rfl (by decide),
   virtwl_vfd_mmap_checks.2.2.1 (VIRTIO_WL_VFD_MAP ||| VIRTIO_WL_VFD_WRITE) 4096 _
     (by decide) (fun _ => by decide) (by decide)⟩

/-! ## The VFD handle table (struct idr vfds)

The table is modelled by the list of allocated ids (the VFD objects
themselves hold their fields; the claims below only observe table
membership).  `idr_alloc` reserves the smallest free id in `[lo, hi)`. -/

def idr_first_free (vfds : List Nat) : Nat → Nat → Option Nat
  | _, 0 => none
  | lo, fuel + 1 =>
    if lo ∈ vfds then idr_first_free vfds (lo + 1) fuel else some lo

def idr_alloc (vfds : List Nat) (lo hi : Nat) : Option (Nat × List Nat) :=
  match idr_first_free vfds lo (hi - lo) with
  | none => none
  | some id => some (id, id :: vfds)

def idr_remove (vfds : List Nat) (id : Nat) : List Nat :=
  vfds.filter (fun e => decide (e ≠ id))

theorem idr_first_free_not_mem (vfds : List Nat) :
    ∀ (fuel lo id : Nat), idr_first_free vfds lo fuel = some id → id ∉ vfds := by
  intro fuel
  induction fuel with
  | zero => intro lo id h; simp [idr_first_free] at h
  | succ n ihn =>
    intro lo id h
    simp only [idr_first_free] at h
    by_cases hc : lo ∈ vfds
    · rw [if_pos hc] at h
      exact ihn _ _ h
    · rw [if_neg hc] at h
      obtain rfl : lo = id := by simpa using h
      exact hc

theorem idr_alloc_some (vfds : List Nat) (lo hi id : Nat) (vfds2 : List Nat)
    (h : idr_alloc vfds lo hi = some (id, vfds2)) :
    id ∉ vfds ∧ vfds2 = id :: vfds := by
  unfold idr_alloc at h
  cases hf : idr_first_free vfds lo (hi - lo) with
  | none => rw [hf] at h; cases h
  | some a =>
    rw [hf] at h
    simp only [Option.some.injEq, Prod.mk.injEq] at h
    obtain ⟨rfl, rfl⟩ := h
    exact ⟨idr_first_free_not_mem vfds _ _ _ hf, rfl⟩

theorem filter_ne_self (vfds : List Nat) (id : Nat) (h : id ∉ vfds) :
    vfds.filter (fun e => decide (e ≠ id)) = vfds := by
  induction vfds with
  | nil => rfl
  | cons a l ihl =>
    have ha : a ≠ id := fun he => h (by rw [he]; exact List.mem_cons_self _ _)
    have hl : id ∉ l := fun hm => h (List.mem_cons_of_mem _ hm)
    rw [List.filter_cons, if_pos (decide_eq_true ha), ihl hl]

theorem idr_remove_alloc (vfds : List Nat) (id : Nat) (h : id ∉ vfds) :
    idr_remove (id :: vfds) id = vfds := by
  unfold idr_remove
  rw [List.filter_cons, if_neg (by simp), filter_ne_self vfds id h]

/-- Allocation at the exact requested id `[id, id + 1)` succeeds exactly when
the id is free, and then registers precisely that id. -/
theorem idr_alloc_exact (vfds : List Nat) (id : Nat) :
    idr_alloc vfds id (id + 1) =
      if id ∈ vfds then none else some (id, id :: vfds) := by
  unfold idr_alloc
  have h1 : id + 1 - id = 1 := by omega
  rw [h1]
  by_cases h : id ∈ vfds
  · simp [idr_first_free, h]
  · simp [idr_first_free, h]

/-! ## vq_handle_new (src/virtio_wl.c lines 192-227)

Handles a host-pushed new-handle message.  The result records the table
after the message, whether the receive buffer is handed back to the
transport, whether a diagnostic was logged, and whether a VFD was
registered.  The pushed size/pfn/flags are stored on the VFD object, which
the table model does not track; `allocOk` models the `virtwl_vfd_alloc`
allocation succeeding. -/

structure VqNewResult where
  vfds : List Nat
  returned : Bool
  logged : Bool
  registered : Bool
deriving DecidableEq, Repr

/-- Validity of a host-pushed VFD id: it carries the host-origin marker bit
and not the illegal sign bit. -/
def vfd_id_valid (id : Nat) : Prop :=
  id &&& VFD_HOST_VFD_ID_BIT ≠ 0 ∧ id &&& VFD_ILLEGAL_SIGN_BIT = 0

instance (id : Nat) : Decidable (vfd_id_valid id) := by
  unfold vfd_id_valid; infer_instance

def vq_handle_new (vfds : List Nat) (vfd_id size pfn flags : Nat)
    (allocOk : Bool) : VqNewResult :=
  if vfd_id = 0 then
    { vfds := vfds, returned := true, logged := false, registered := false }
  else if vfd_id &&& VFD_HOST_VFD_ID_BIT = 0 ∨
      vfd_id &&& VFD_ILLEGAL_SIGN_BIT ≠ 0 then
    { vfds := vfds, returned := true, logged := true, registered := false }
  else if allocOk = false then
    { vfds := vfds, returned := true, logged := false, registered := false }
  else
    match idr_alloc vfds vfd_id (vfd_id + 1) with
    | none =>
      { vfds := vfds, returned := true, logged := true, registered := false }
    | some (_, vfds2) =>
      { vfds := vfds2, returned := true, logged := false, registered := true }

/-- C6 counterexample: the message with host-given id 0 fails the
origin-marker validation (0 carries no host-origin bit), yet the dispatcher
discards it without logging any diagnostic, so not every message failing the
validation is logged. -/
theorem vq_handle_new_zero_unlogged :
    ¬ vfd_id_valid 0 ∧
    (vq_handle_new [] 0 16 99 1 true).logged = false ∧
    (vq_handle_new [] 0 16 99 1 true).registered = false := by
  refine ⟨by decide, rfl, rfl⟩

/-- C6 (amended): a VFD is registered — at exactly the host-given id — only
when the id carries the host-origin marker bit and not the illegal sign bit;
a message with a nonzero id failing this validation is logged, discarded
without mutating the handle table, and its buffer returned to the transport;
a message with id 0 is likewise discarded without table mutation and its
buffer returned, but silently. -/
theorem vq_handle_new_validation (vfds : List Nat) (id size pfn flags : Nat)
    (allocOk : Bool) :
    ((vq_handle_new vfds id size pfn flags allocOk).registered = true →
      vfd_id_valid id ∧
      (vq_handle_new vfds id size pfn flags allocOk).vfds = id :: vfds) ∧
    (id ≠ 0 → ¬ vfd_id_valid id →
      vq_handle_new vfds id size pfn flags allocOk =
        { vfds := vfds, returned := true, logged := true, registered := false }) ∧
    (id = 0 →
      vq_handle_new vfds id size pfn flags allocOk =
        { vfds := vfds, returned := true, logged := false, registered := false }) := by
  unfold vq_handle_new
  by_cases h0 : id = 0
  · rw [if_pos h0]
    exact ⟨fun hcon => Bool.noConfusion hcon, fun hne _ => absurd h0 hne,
      fun _ => rfl⟩
  · rw [if_neg h0]
    by_cases hv : vfd_id_valid id
    · rw [if_neg (by unfold vfd_id_valid at hv; push_neg; exact ⟨hv.1, hv.2⟩)]
      by_cases ha : allocOk = false
      · rw [if_pos ha]
        exact ⟨fun hcon => Bool.noConfusion hcon, fun _ hnv => absurd hv hnv,
          fun hz => absurd hz h0⟩
      · rw [if_neg ha, idr_alloc_exact]
        by_cases hm : id ∈ vfds
        · rw [if_pos hm]
          exact ⟨fun hcon => Bool.noConfusion hcon, fun _ hnv => absurd hv hnv,
            fun hz => absurd hz h0⟩
        · rw [if_neg hm]
          exact ⟨fun _ => ⟨hv, rfl⟩, fun _ hnv => absurd hv hnv,
            fun hz => absurd hz h0⟩
    · rw [if_pos (by
        unfold vfd_id_valid at hv
        push_neg at hv
        by_cases hb : id &&& VFD_HOST_VFD_ID_BIT = 0
        · exact Or.inl hb
        · exact Or.inr (hv hb))]
      exact ⟨fun hcon => Bool.noConfusion hcon, fun _ _ => rfl,
        fun hz => absurd hz h0⟩

/-- Witness for C6 (amended) at a concrete input: id `0x20000001` (sign bit
clear but host-origin bit also clear) is logged, discarded and its buffer
returned. -/
theorem vq_handle_new_validation_witness :
    vq_handle_new [] 0x20000001 16 99 1 true =
      { vfds := [], returned := true, logged := true, registered := false } :=
  (vq_handle_new_validation [] 0x20000001 16 99 1 true).2.1 (by decide) (by decide)

/-- C10: a host-pushed new-handle message with id exactly 0 is silently
accepted and dropped: no VFD is registered, the handle table is unchanged,
the buffer is returned to the transport, and no diagnostic is logged —
unlike a nonzero invalid id (for instance 1, which lacks the host-origin
marker), which is logged. -/
theorem vq_handle_new_zero_id_silent (vfds : List Nat) (size pfn flags : Nat)
    (allocOk : Bool) :
    vq_handle_new vfds 0 size pfn flags allocOk =
      { vfds := vfds, returned := true, logged := false, registered := false } ∧
    (vq_handle_new vfds 1 size pfn flags allocOk).logged = true := by
  constructor
  · rfl
  · rfl

/-! ## do_new (src/virtio_wl.c lines 781-868)

Guest-initiated New request: allocate a local VFD, register it in the table
at the smallest free id in `[1, VIRTWL_MAX_ALLOC)`, submit the request and
wait for the host acknowledgment (`queueRet` is the submission result, the
`resp*` parameters are the fields the host acknowledgment wrote back); on a
host-reported error the new VFD is unlinked and freed and the mapped error
returned.  Internal allocation failures (`kzalloc`) are not modelled. -/

structure VfdRec where
  id : Nat
  size : Nat
  pfn : Nat
  flags : Nat
deriving DecidableEq, Repr

def do_new (vfds : List Nat) (type size : Nat) (queueRet : Int)
    (respType respSize respPfn respFlags : Nat) :
    List Nat × Except Int VfdRec :=
  if type ≠ VIRTWL_IOCTL_NEW_CTX ∧ type ≠ VIRTWL_IOCTL_NEW_ALLOC then
    (vfds, Except.error (-EINVAL))
  else
    match idr_alloc vfds 1 VIRTWL_MAX_ALLOC with
    | none => (vfds, Except.error (-ENOSPC))
    | some (id, vfds2) =>
      if queueRet ≠ 0 then (idr_remove vfds2 id, Except.error queueRet)
      else if virtwl_resp_err respType ≠ 0 then
        (idr_remove vfds2 id, Except.error (virtwl_resp_err respType))
      else (vfds2, Except.ok ⟨id, respSize, respPfn, respFlags⟩)

/-- C7: when the host acknowledgment of a New request reports an error
(explicit error, out-of-memory, invalid-ID or invalid-type), the newly
registered VFD is unregistered and freed, the handle table is left exactly
as it was before the call, and the call returns the failure kind that
`virtwl_resp_err` assigns to the host's error code (a nonzero error). -/
theorem do_new_host_error (vfds : List Nat) (type size : Nat)
    (respType respSize respPfn respFlags : Nat)
    (htype : type = VIRTWL_IOCTL_NEW_CTX ∨ type = VIRTWL_IOCTL_NEW_ALLOC)
    (hresp : respType = VIRTIO_WL_RESP_ERR ∨
      respType = VIRTIO_WL_RESP_OUT_OF_MEMORY ∨
      respType = VIRTIO_WL_RESP_INVALID_ID ∨
      respType = VIRTIO_WL_RESP_INVALID_TYPE)
    (halloc : idr_alloc vfds 1 VIRTWL_MAX_ALLOC ≠ none) :
    (do_new vfds type size 0 respType respSize respPfn respFlags).1 = vfds ∧
    (do_new vfds type size 0 respType respSize respPfn respFlags).2 =
      Except.error (virtwl_resp_err respType) ∧
    virtwl_resp_err respType ≠ 0 := by
  have herr : virtwl_resp_err respType ≠ 0 := by
    rcases hresp with rfl | rfl | rfl | rfl <;> decide
  unfold do_new
  rw [if_neg (by rcases htype with rfl | rfl <;> simp)]
  cases hA : idr_alloc vfds 1 VIRTWL_MAX_ALLOC with
  | none => exact absurd hA halloc
  | some p =>
    obtain ⟨id, vfds2⟩ := p
    obtain ⟨hnm, rfl⟩ := idr_alloc_some vfds 1 VIRTWL_MAX_ALLOC id vfds2 hA
    simp only [hA]
    rw [if_neg (by simp : ¬(0 : Int) ≠ 0), if_pos herr]
    exact ⟨idr_remove_alloc vfds id hnm, rfl, herr⟩

/-- Witness for C7 at a concrete input: a New-context request acknowledged
with the generic host error leaves the empty table empty and returns
`-ENODEV`. -/
theorem do_new_host_error_witness :
    (do_new [] VIRTWL_IOCTL_NEW_CTX 0 0 VIRTIO_WL_RESP_ERR 0 0 0).1 = [] ∧
    (do_new [] VIRTWL_IOCTL_NEW_CTX 0 0 VIRTIO_WL_RESP_ERR 0 0 0).2 =
      Except.error (virtwl_resp_err VIRTIO_WL_RESP_ERR) ∧
    virtwl_resp_err VIRTIO_WL_RESP_ERR ≠ 0 :=
  do_new_host_error [] VIRTWL_IOCTL_NEW_CTX 0 VIRTIO_WL_RESP_ERR 0 0 0
    (Or.inl rfl) (Or.inl rfl) (by decide)

/-! ## do_vfd_close (src/virtio_wl.c lines 528-562) and virtwl_vfd_remove
(lines 396-413)

`do_vfd_close` allocates a close message, queues it to the host (blocking
mode), waits uninterruptibly on the completion, and only then runs
`virtwl_vfd_remove` — unlink the id from the table, return every pending
entry's buffer to the transport, free the VFD.  The run is modelled as the
ordered event trace the call produces, with the host acknowledgment arriving
after `ackDelay` polls of the completion; `allocOk` models the `kzalloc`
result and `queueRet` the `vq_queue_out` result. -/

inductive CloseEv
  | submitClose
  | stillWaiting
  | ackObserved
  | unlinkVfd
  | flushQueue
  | freeVfd
deriving DecidableEq, Repr

def isTeardown : CloseEv → Bool
  | CloseEv.unlinkVfd => true
  | CloseEv.flushQueue => true
  | CloseEv.freeVfd => true
  | _ => false

/-- Local teardown of `virtwl_vfd_remove` on the pending queue: every
retained entry's buffer is returned to the transport and the queue empties. -/
def virtwl_vfd_remove (inQueue : List QEntry) : List QEntry × List QEntry :=
  ([], inQueue)

def virtwl_vfd_remove_events : List CloseEv :=
  [CloseEv.unlinkVfd, CloseEv.flushQueue, CloseEv.freeVfd]

def do_vfd_close (allocOk : Bool) (queueRet : Int) (ackDelay : Nat) :
    List CloseEv × Int :=
  if allocOk = false then ([], -ENOMEM)
  else if queueRet ≠ 0 then ([], queueRet)
  else (CloseEv.submitClose ::
    (List.replicate ackDelay CloseEv.stillWaiting ++
      CloseEv.ackObserved :: virtwl_vfd_remove_events), 0)

/-- Elements of a split-off prefix that excludes `x` come from the part
before the first occurrence of `x`. -/
theorem mem_left_of_split {α : Type} :
    ∀ (pre A B post : List α) (x : α),
      A ++ x :: B = pre ++ post → x ∉ pre → ∀ e ∈ pre, e ∈ A := by
  intro pre
  induction pre with
  | nil =>
    intro A B post x hsp hx e he
    exact absurd he (List.not_mem_nil e)
  | cons p pre2 ihp =>
    intro A B post x hsp hx e he
    cases A with
    | nil =>
      rw [List.nil_append] at hsp
      injection hsp with h1 h2
      subst h1
      exact absurd (List.mem_cons_self _ _) hx
    | cons a A2 =>
      rw [List.cons_append] at hsp
      injection hsp with h1 h2
      subst h1
      rcases List.mem_cons.mp he with rfl | he2
      · exact List.mem_cons_self _ _
      · exact List.mem_cons_of_mem _
          (ihp A2 B post x h2 (fun hm => hx (List.mem_cons_of_mem _ hm)) e he2)

/-- C3: in every run of close, no local-teardown event (unlink from the
handle table, flush of pending entries, free of the VFD) occurs before the
host acknowledgment has been observed — any prefix of the run's trace that
lacks the acknowledgment contains no teardown event; and whenever the close
message was queued successfully, then for every finite acknowledgment delay
the close returns success and the VFD is freed. -/
theorem do_vfd_close_ack_before_teardown (allocOk : Bool) (queueRet : Int)
    (ackDelay : Nat) (pre post : List CloseEv)
    (hsplit : (do_vfd_close allocOk queueRet ackDelay).1 = pre ++ post)
    (hnoack : CloseEv.ackObserved ∉ pre) :
    (∀ e ∈ pre, isTeardown e = false) ∧
    (allocOk = true → queueRet = 0 →
      (do_vfd_close allocOk queueRet ackDelay).2 = 0 ∧
      CloseEv.freeVfd ∈ (do_vfd_close allocOk queueRet ackDelay).1) := by
  unfold do_vfd_close at hsplit ⊢
  by_cases ha : allocOk = false
  · rw [if_pos ha] at hsplit ⊢
    have hpre : pre = [] := by
      cases pre with
      | nil => rfl
      | cons p l => simp at hsplit
    subst hpre
    exact ⟨fun e he => absurd he (List.not_mem_nil e),
      fun hat _ => absurd (ha.symm.trans hat) Bool.noConfusion⟩
  · rw [if_neg ha] at hsplit ⊢
    by_cases hq : queueRet ≠ 0
    · rw [if_pos hq] at hsplit ⊢
      have hpre : pre = [] := by
        cases pre with
        | nil => rfl
        | cons p l => simp at hsplit
      subst hpre
      exact ⟨fun e he => absurd he (List.not_mem_nil e),
        fun _ hqz => absurd hqz hq⟩
    · rw [if_neg hq] at hsplit ⊢
      have htr : (CloseEv.submitClose ::
          List.replicate ackDelay CloseEv.stillWaiting) ++
          CloseEv.ackObserved :: virtwl_vfd_remove_events = pre ++ post := by
        rw [List.cons_append]
        exact hsplit
      have hmem := mem_left_of_split pre _ _ post _ htr hnoack
      constructor
      · intro e he
        rcases List.mem_cons.mp (hmem e he) with rfl | hrep
        · rfl
        · rw [List.eq_of_mem_replicate hrep]
          rfl
      · intro _ _
        refine ⟨rfl, ?_⟩
        simp [virtwl_vfd_remove_events]

/-- Witness for C3 at a concrete input: delay 1, successful queueing; the
prefix before the acknowledgment holds no teardown event, the call returns 0
and frees the VFD. -/
theorem do_vfd_close_ack_before_teardown_witness :
    (∀ e ∈ [CloseEv.submitClose, CloseEv.stillWaiting], isTeardown e = false) ∧
    ((do_vfd_close true 0 1).2 = 0 ∧
      CloseEv.freeVfd ∈ (do_vfd_close true 0 1).1) := by
  have h := do_vfd_close_ack_before_teardown true 0 1
    [CloseEv.submitClose, CloseEv.stillWaiting]
    (CloseEv.ackObserved :: virtwl_vfd_remove_events) (by decide) (by decide)
  exact ⟨h.1, h.2 rfl rfl⟩

/-! ## vfd_out_vfds_locked (src/virtio_wl.c lines 484-525) and
virtwl_vfd_recv (lines 564-605)

`vfd_out_vfds_locked` walks the pending queue extracting up to `count`
transferred handle ids in arrival order; ids the table does not recognize
are logged and skipped, each consuming the entry's handle cursor.
`virtwl_vfd_recv` is the receive call: while nothing has been produced, it
waits (blocking mode) for the pending queue to become non-empty, then drains
bytes and — when the caller supplied handle capacity — handles, greedily
once; an empty drain iterates.  Wait outcomes are threaded as events
(`interrupted` cancellation, or `arrive` appending entries the dispatcher
queued); `fuel` bounds the number of loop iterations modelled, `none`
meaning the call is still blocked or looping when fuel runs out. -/

def qentry_vfds_remaining (q : QEntry) : Int :=
  (q.vfdCount : Int) - (q.vfdOffset : Int)

def qentry_advance_vfds (q : QEntry) (n : Nat) : QEntry :=
  { q with vfdOffset := q.vfdOffset + n }

def vfd_out_vfds_locked (table : List Nat) :
    List QEntry → Nat → List Nat × List QEntry
  | [], _ => ([], [])
  | q :: rest, count =>
    if count = 0 then ([], q :: rest)
    else if qentry_vfds_remaining q ≤ 0 then
      let r := vfd_out_vfds_locked table rest count
      (r.1, q :: r.2)
    else if q.hdrType ≠ VIRTIO_WL_CMD_VFD_RECV then
      let r := vfd_out_vfds_locked table rest count
      (r.1, q :: r.2)
    else
      let toRead := min (qentry_vfds_remaining q).toNat count
      let found := ((q.handles.drop q.vfdOffset).take toRead).filter
        (fun id => decide (id ∈ table))
      let q2 := qentry_advance_vfds q toRead
      let r := vfd_out_vfds_locked table rest (count - found.length)
      if vfd_qentry_is_empty q2 then (found ++ r.1, r.2)
      else (found ++ r.1, q2 :: r.2)

inductive RecvEv
  | interrupted
  | arrive (entries : List QEntry)
deriving DecidableEq, Repr

inductive RecvOut
  | err (e : Int)
  | ok (bytes : List Nat) (handles : List Nat)
deriving DecidableEq, Repr

/-- One drain pass of the receive call: bytes, then (capacity permitting)
handles; returns (bytes, handle ids, queue after the pass). -/
def recv_step (table : List Nat) (queue : List QEntry) (len vfdCap : Nat) :
    List Nat × List Nat × List QEntry :=
  let r1 := vfd_out_locked queue len
  let r2 := if 0 < vfdCap then vfd_out_vfds_locked table r1.2 vfdCap
            else ([], r1.2)
  (r1.1, r2.1, r2.2)

def virtwl_vfd_recv (nonblock : Bool) (table : List Nat) (len vfdCap : Nat) :
    Nat → List QEntry → List RecvEv → Option (RecvOut × List QEntry)
  | 0, _, _ => none
  | fuel + 1, queue, evs =>
    if queue = [] then
      if nonblock then some (RecvOut.err (-EAGAIN), queue)
      else
        match evs with
        | [] => none
        | RecvEv.interrupted :: _ => some (RecvOut.err (-ERESTARTSYS), queue)
        | RecvEv.arrive es :: rest =>
          virtwl_vfd_recv nonblock table len vfdCap fuel (queue ++ es) rest
    else
      if (recv_step table queue len vfdCap).1 = [] ∧
          (recv_step table queue len vfdCap).2.1 = [] then
        virtwl_vfd_recv nonblock table len vfdCap fuel
          (recv_step table queue len vfdCap).2.2 evs
      else
        some (RecvOut.ok (recv_step table queue len vfdCap).1
          (recv_step table queue len vfdCap).2.1,
          (recv_step table queue len vfdCap).2.2)

/-- One-step unfolding of `virtwl_vfd_recv`. -/
theorem virtwl_vfd_recv_unfold (nonblock : Bool) (table : List Nat)
    (len vfdCap fuel : Nat) (queue : List QEntry) (evs : List RecvEv) :
    virtwl_vfd_recv nonblock table len vfdCap (fuel + 1) queue evs =
      if queue = [] then
        if nonblock then some (RecvOut.err (-EAGAIN), queue)
        else
          match evs with
          | [] => none
          | RecvEv.interrupted :: _ => some (RecvOut.err (-ERESTARTSYS), queue)
          | RecvEv.arrive es :: rest =>
            virtwl_vfd_recv nonblock table len vfdCap fuel (queue ++ es) rest
      else
        if (recv_step table queue len vfdCap).1 = [] ∧
            (recv_step table queue len vfdCap).2.1 = [] then
          virtwl_vfd_recv nonblock table len vfdCap fuel
            (recv_step table queue len vfdCap).2.2 evs
        else
          some (RecvOut.ok (recv_step table queue len vfdCap).1
            (recv_step table queue len vfdCap).2.1,
            (recv_step table queue len vfdCap).2.2) := by
  cases evs with
  | nil => rfl
  | cons e rest => cases e <;> rfl

/-- A successful receive never returns zero bytes together with zero
handles: the loop only exits with a produced result. -/
theorem recv_ok_nonempty (nonblock : Bool) (table : List Nat) (len cap : Nat) :
    ∀ (fuel : Nat) (queue : List QEntry) (evs : List RecvEv)
      (b h : List Nat) (q' : List QEntry),
      virtwl_vfd_recv nonblock table len cap fuel queue evs =
        some (RecvOut.ok b h, q') → ¬(b = [] ∧ h = []) := by
  intro fuel
  induction fuel with
  | zero =>
    intro queue evs b h q' heq
    simp [virtwl_vfd_recv] at heq
  | succ n ihn =>
    intro queue evs b h q' heq
    rw [virtwl_vfd_recv_unfold] at heq
    by_cases hq : queue = []
    · rw [if_pos hq] at heq
      by_cases hnb : nonblock
      · rw [if_pos hnb] at heq
        simp at heq
      · rw [if_neg hnb] at heq
        cases evs with
        | nil => exact Option.noConfusion heq
        | cons e rest =>
          cases e with
          | interrupted => simp at heq
          | arrive es => exact ihn _ _ _ _ _ heq
    · rw [if_neg hq] at heq
      by_cases hstep : (recv_step table queue len cap).1 = [] ∧
          (recv_step table queue len cap).2.1 = []
      · rw [if_pos hstep] at heq
        exact ihn _ _ _ _ _ heq
      · rw [if_neg hstep] at heq
        simp only [Option.some.injEq, Prod.mk.injEq, RecvOut.ok.injEq] at heq
        obtain ⟨⟨rfl, rfl⟩, -⟩ := heq
        exact hstep

/-- C9: a non-blocking receive on an empty pending queue returns the
try-again result instead of blocking; a blocking receive on an empty queue
stays blocked while nothing arrives, and once entries arrive proceeds on
exactly those entries; a receive never successfully returns zero bytes and
zero handles (so zero results can only be returned when both queued payload
and queued handles are empty — in which case it does not return at all);
and on a non-empty queue whose single greedy drain pass produces anything,
the call returns exactly that pass's bytes and handles. -/
theorem virtwl_vfd_recv_spec (nonblock : Bool) (table : List Nat)
    (len cap fuel : Nat) (queue es : List QEntry) (evs rest : List RecvEv) :
    virtwl_vfd_recv true table len cap (fuel + 1) [] evs =
      some (RecvOut.err (-EAGAIN), []) ∧
    virtwl_vfd_recv false table len cap (fuel + 1) [] [] = none ∧
    virtwl_vfd_recv false table len cap (fuel + 1) []
      (RecvEv.arrive es :: rest) =
      virtwl_vfd_recv false table len cap fuel es rest ∧
    (∀ b h q', virtwl_vfd_recv nonblock table len cap fuel queue evs =
      some (RecvOut.ok b h, q') → ¬(b = [] ∧ h = [])) ∧
    (queue ≠ [] →
      ¬((recv_step table queue len cap).1 = [] ∧
        (recv_step table queue len cap).2.1 = []) →
      virtwl_vfd_recv nonblock table len cap (fuel + 1) queue evs =
        some (RecvOut.ok (recv_step table queue len cap).1
          (recv_step table queue len cap).2.1,
          (recv_step table queue len cap).2.2)) := by
  refine ⟨?_, ?_, ?_,
    fun b h q' => recv_ok_nonempty nonblock table len cap fuel queue evs b h q',
    ?_⟩
  · rw [virtwl_vfd_recv_unfold]
    rfl
  · rw [virtwl_vfd_recv_unfold]
    rfl
  · rw [virtwl_vfd_recv_unfold]
    rfl
  · intro hq hne
    rw [virtwl_vfd_recv_unfold, if_neg hq, if_neg hne]

/-- Witness for C9 at concrete inputs: a non-blocking receive on an empty
queue returns `-EAGAIN`; a blocking receive on a queue holding one entry
with payload byte 5 returns that byte, no handles. -/
theorem virtwl_vfd_recv_spec_witness :
    virtwl_vfd_recv true [] 8 4 1 [] [] =
      some (RecvOut.err (-EAGAIN), []) ∧
    virtwl_vfd_recv false [] 8 4 1
      [{ hdrType := VIRTIO_WL_CMD_VFD_RECV, vfdId := 1, vfdCount := 0,
         handles := [], payload := [5], len := 17, vfdOffset := 0,
         dataOffset := 0 }] [] = some (RecvOut.ok [5] [], []) := by
  constructor
  · exact (virtwl_vfd_recv_spec true [] 8 4 0 [] [] [] []).1
  · exact ((virtwl_vfd_recv_spec false [] 8 4 0
      [{ hdrType := VIRTIO_WL_CMD_VFD_RECV, vfdId := 1, vfdCount := 0,
         handles := [], payload := [5], len := 17, vfdOffset := 0,
         dataOffset := 0 }] [] [] []).2.2.2.2
      (by decide) (by decide)).trans (by decide)

end VirtioWl
